import Mathlib

/-!
# Verification of `yr_to_pandas` (conditional fetch cache + history merge)

Shallow embedding of the repository's core logic:

* `pandas_helper.py` — `pandas_concat` and `keep_history`: the history merge
  store.  A dataframe row is modelled as a pair of its `time` value (an
  integer timestamp) and an opaque payload standing for all remaining
  columns of that row (the merge logic never inspects them).
* `yr_client.py` — `cached_yr_request`: the conditional fetch cache.
  Modelled as a pure function over an explicit environment (clock, cache
  file contents, network), returning the result together with the list of
  network requests performed and the record written to the cache file, if
  any.

All definitions are executable; theorems at concrete inputs evaluate by
`decide` / `rfl`.
-/

namespace YrToPandas

/-! ## History merge store (`pandas_helper.py`) -/

/-- A dataframe row: the `time` column (timestamp) paired with the rest of
the row, opaque to the merge logic. -/
abbrev Row : Type := Int × String

/-- A dataframe: a finite sequence of rows. -/
abbrev DF : Type := List Row

/-- The `time` column of a dataframe. -/
def timesOf (df : DF) : List Int := df.map Prod.fst

/-- Embedding of `DataFrame.drop_duplicates(subset='time', keep='last')`:
a row is kept exactly when no later row has the same `time` value, and the
relative order of kept rows is preserved. -/
def dropDupKeepLast : DF → DF
  | [] => []
  | r :: rs => if r.1 ∈ timesOf rs then dropDupKeepLast rs else r :: dropDupKeepLast rs

/-- Ordering of rows by their `time` value (`sort_values(by='time')`). -/
def rowLE (a b : Row) : Prop := a.1 ≤ b.1

/-- Strict ordering of rows by their `time` value. -/
def rowLT (a b : Row) : Prop := a.1 < b.1

instance : DecidableRel rowLE := fun a b => inferInstanceAs (Decidable (a.1 ≤ b.1))

instance : DecidableRel rowLT := fun a b => inferInstanceAs (Decidable (a.1 < b.1))

instance : IsTotal Row rowLE := ⟨fun a b => Int.le_total a.1 b.1⟩

instance : IsTrans Row rowLE := ⟨fun _ _ _ h h' => le_trans h h'⟩

instance : IsAntisymm Row rowLT :=
  ⟨fun _ _ h h' => absurd (lt_trans h h') (lt_irrefl _)⟩

/-- Embedding of `DataFrame.sort_values(by='time')`.  The source sorts after
deduplicating by `time`, so the keys are pairwise distinct and any correct
sort produces the same list; we realise it with insertion sort. -/
def sortByTime (df : DF) : DF := df.insertionSort rowLE

/-- Embedding of `pandas_helper.pandas_concat(df1, df2, subset='time')`.
When `df2` is absent (`None`), `df1` is returned unchanged.  Otherwise the
source concatenates `[df2, df1]` (so `df1` rows come last), drops duplicate
`time` values keeping the last occurrence, and sorts by `time`.  As in the
source, the call to `drop_duplicates` hard-codes `subset='time'`, ignoring
the `subset` parameter. -/
def pandas_concat (df1 : DF) (df2 : Option DF) (subset : String) : DF :=
  match df2 with
  | none => df1
  | some d2 => sortByTime (dropDupKeepLast (d2 ++ df1))

/-- Embedding of `pandas_helper.keep_history(historical_filename, df)`:
load the stored archive if it exists (`storage`), merge with
`pandas_concat(df, df_storage)`, write the result back (the return value is
exactly what gets persisted). -/
def keep_history (storage : Option DF) (df : DF) : DF :=
  pandas_concat df storage "time"

/-! ## Conditional fetch cache (`yr_client.cached_yr_request`) -/

/-- A Python value as it occurs in the request parameter / header / JSON
dictionaries handled by `cached_yr_request`: a number, a string, or `None`.
A numeric value `num m e` stands for the decimal number `m / 10^e` (the
coordinates the callers pass are decimal literals; the binary floating
representation is immaterial to the verified claims). -/
inductive PVal : Type where
  | num (m : Int) (e : Nat)
  | str (s : String)
  | pynone
deriving DecidableEq

/-- A Python `dict` with string keys, in insertion order. -/
abbrev Dict : Type := List (String × PVal)

/-- Read access `d[k]` on a dict (a `None` result models a raised `KeyError`). -/
def lookupD (d : Dict) (k : String) : Option PVal :=
  (d.find? (fun p => p.1 = k)).map Prod.snd

/-- Assignment `d[k] = v` on a dict: replace in place when the key exists,
append otherwise (Python dicts preserve insertion order). -/
def setKey (d : Dict) (k : String) (v : PVal) : Dict :=
  if (d.find? (fun p => p.1 = k)).isSome then
    d.map (fun p => if p.1 = k then (k, v) else p)
  else d ++ [(k, v)]

/-- Exceptions `cached_yr_request` can raise or propagate. -/
inductive PyExc : Type where
  | jsonDecodeError
  | keyError
  | valueError
  | typeError
  | connectionError
  | httpError
  | nameError
deriving DecidableEq

/-- Left-pad the decimal rendering of `n` with zeros up to width `d`. -/
def padZeros (d : Nat) (n : Nat) : String :=
  let s := toString n
  String.mk (List.replicate (d - s.length) '0') ++ s

/-- Render the decimal number `m / 10^e` with a fixed number of decimals,
rounding to the nearest value as `⌊x·10^d + 1/2⌋` (the source formats
Python floats; the tie-breaking mode of the underlying binary rounding is
immaterial to the verified claims). -/
def fmtNum (decimals : Nat) (m : Int) (e : Nat) : String :=
  let scale : Nat := 10 ^ decimals
  let den : Nat := 10 ^ e
  let r : Int := Int.fdiv (2 * m * scale + den) (2 * den)
  let sign := if r < 0 then "-" else ""
  let a := r.natAbs
  if decimals = 0 then sign ++ toString a
  else sign ++ toString (a / scale) ++ "." ++ padZeros decimals (a % scale)

/-- Embedding of `'{:.<d>f}'.format(v)`: succeeds on numbers, raises `ValueError` on a
string (unknown format code `f` for `str`), raises `TypeError` on `None`
(unsupported format string for `NoneType`). -/
def formatFixed (decimals : Nat) (v : PVal) : Except PyExc String :=
  match v with
  | .num m e => .ok (fmtNum decimals m e)
  | .str _ => .error .valueError
  | .pynone => .error .typeError

/-- The parameter-normalization loop of `cached_yr_request`: `lat` and
`lon` values are formatted to 4 decimals, `altitude` to 0 decimals; a
`ValueError` from the formatting ("probably not number") is caught and the
value passed through unchanged; any other exception propagates. -/
def normalizeParam (k : String) (v : PVal) : Except PyExc PVal :=
  if k = "lat" ∨ k = "lon" then
    match formatFixed 4 v with
    | .ok s => .ok (.str s)
    | .error .valueError => .ok v
    | .error e => .error e
  else if k = "altitude" then
    match formatFixed 0 v with
    | .ok s => .ok (.str s)
    | .error .valueError => .ok v
    | .error e => .error e
  else .ok v

/-- Normalize all parameters in order; the first uncaught exception aborts
the call. -/
def normalizeParams : Dict → Except PyExc Dict
  | [] => .ok []
  | (k, v) :: rest =>
    match normalizeParam k v with
    | .error e => .error e
    | .ok v' =>
      match normalizeParams rest with
      | .error e => .error e
      | .ok rest' => .ok ((k, v') :: rest')

/-- A `datetime` as handled by the cache-expiry check: year, month, day,
hour, minute, second, all in the GMT zone. -/
structure DateTime : Type where
  year : Nat
  month : Nat
  day : Nat
  hour : Nat
  minute : Nat
  second : Nat
deriving DecidableEq

/-- Comparison of two `datetime` values in the same time zone:
lexicographic on the fields. -/
def dtLt (a b : DateTime) : Bool :=
  if a.year ≠ b.year then a.year < b.year
  else if a.month ≠ b.month then a.month < b.month
  else if a.day ≠ b.day then a.day < b.day
  else if a.hour ≠ b.hour then a.hour < b.hour
  else if a.minute ≠ b.minute then a.minute < b.minute
  else a.second < b.second

/-- Split a character list on a separator. -/
def splitOnChar (sep : Char) : List Char → List (List Char)
  | [] => [[]]
  | c :: cs =>
    let rest := splitOnChar sep cs
    if c = sep then [] :: rest
    else
      match rest with
      | [] => [[c]]
      | g :: gs => (c :: g) :: gs

/-- Parse a non-empty all-digit character list as a natural number. -/
def digitsToNat? : List Char → Option Nat
  | [] => none
  | cs =>
    if cs.all Char.isDigit then
      some (cs.foldl (fun n c => n * 10 + (c.toNat - '0'.toNat)) 0)
    else none

/-- English month abbreviations, as matched by `%b` under the `en_US`
locale pinned by the source. -/
def monthNames : List String :=
  ["Jan", "Feb", "Mar", "Apr", "May", "Jun", "Jul", "Aug", "Sep", "Oct", "Nov", "Dec"]

/-- English weekday abbreviations followed by the literal comma of the
format string (`%a,`). -/
def weekdayTokens : List String :=
  ["Mon,", "Tue,", "Wed,", "Thu,", "Fri,", "Sat,", "Sun,"]

/-- Number of days in a month (Gregorian calendar, as validated by the
`datetime` constructor). -/
def daysInMonth (year month : Nat) : Nat :=
  if month = 2 then
    if year % 4 = 0 ∧ (year % 100 ≠ 0 ∨ year % 400 = 0) then 29 else 28
  else if month = 4 ∨ month = 6 ∨ month = 9 ∨ month = 11 then 30
  else 31

/-- Model of `datetime.strptime(s, '%a, %d %b %Y %H:%M:%S %Z')` on the
RFC 1123 GMT dates the server emits (e.g. `"Sat, 25 Dec 2021 08:03:41
GMT"`): `none` models the `ValueError` raised on a string that does not
match the format or does not form a valid date. -/
def parseHTTPDate (s : String) : Option DateTime :=
  match splitOnChar ' ' s.toList with
  | [wd, dd, mon, yyyy, hms, tz] =>
    if (weekdayTokens.map String.toList).contains wd
        ∧ tz = "GMT".toList ∧ yyyy.length = 4 ∧ dd.length ≤ 2 then
      match digitsToNat? dd, (monthNames.map String.toList).indexOf? mon,
          digitsToNat? yyyy, splitOnChar ':' hms with
      | some d, some mIdx, some y, [hh, mm, ss] =>
        if hh.length ≤ 2 ∧ mm.length ≤ 2 ∧ ss.length ≤ 2 then
          match digitsToNat? hh, digitsToNat? mm, digitsToNat? ss with
          | some h, some mi, some sec =>
            let m := mIdx + 1
            if 1 ≤ d ∧ d ≤ daysInMonth y m ∧ h ≤ 23 ∧ mi ≤ 59 ∧ sec ≤ 59 then
              some ⟨y, m, d, h, mi, sec⟩
            else none
          | _, _, _ => none
        else none
      | _, _, _, _ => none
    else none
  | _ => none

/-- HTTP response headers, as exposed by `requests` (string-valued). -/
abbrev RespHeaders : Type := List (String × String)

/-- Header read access; a missing header models a raised `KeyError`. -/
def lookupHdr (hs : RespHeaders) (k : String) : Option String :=
  (hs.find? (fun p => p.1 = k)).map Prod.snd

/-- The decoded text of an HTTP response body: either not valid JSON
(`json.loads` raises) or a decoded JSON object. -/
inductive JSONText : Type where
  | badJSON
  | goodJSON (d : Dict)
deriving DecidableEq

/-- The outcome of one `requests.get` call: a raised connection error, or a
response with a status code, headers and body text. -/
inductive NetOutcome : Type where
  | connError
  | resp (status : Nat) (rheaders : RespHeaders) (text : JSONText)
deriving DecidableEq

/-- One network request as issued by `requests.get(url, headers=…,
params=…)`. -/
structure Request : Type where
  url : String
  headers : Dict
  params : Dict
deriving DecidableEq

/-- The contents of the cache file on disk: either bytes that fail JSON
decoding, or a decoded JSON object. -/
inductive RawFile : Type where
  | corrupt
  | parsed (d : Dict)
deriving DecidableEq

/-- The environment `cached_yr_request` runs in: the current GMT time, the
cache file for this `cache_filename` (absent = `none`), and the network. -/
structure Env : Type where
  now : DateTime
  cache : Option RawFile
  net : Request → NetOutcome

instance {ε α : Type} [DecidableEq ε] [DecidableEq α] : DecidableEq (Except ε α) := fun a b =>
  match a, b with
  | .ok x, .ok y =>
    if h : x = y then .isTrue (by rw [h]) else .isFalse (by simp [h])
  | .ok _, .error _ => .isFalse (by simp)
  | .error _, .ok _ => .isFalse (by simp)
  | .error x, .error y =>
    if h : x = y then .isTrue (by rw [h]) else .isFalse (by simp [h])

/-- Observable outcome of one `cached_yr_request` call: the returned value
or raised exception, the network requests performed, and the record written
to the cache file, if any. -/
structure FetchResult : Type where
  result : Except PyExc Dict
  netCalls : List Request
  written : Option Dict
deriving DecidableEq

/-- The network half of `cached_yr_request`, entered when the cache is
absent, corrupt, or expired: `requests.get`, `raise_for_status`, the 304
short-circuit (a warning-only 203 branch has no behavioural effect), JSON
decoding, attaching the response's `Expires` / `Last-Modified` headers, and
the cache-file write.  `old` is the previously cached record when one was
successfully loaded (`none` models the name `old` being unbound). -/
def requestStep (net : Request → NetOutcome) (url : String)
    (headers params : Dict) (old : Option Dict) : FetchResult :=
  match net ⟨url, headers, params⟩ with
  | .connError => ⟨.error .connectionError, [⟨url, headers, params⟩], none⟩
  | .resp status rheaders text =>
    if 400 ≤ status ∧ status < 600 then
      ⟨.error .httpError, [⟨url, headers, params⟩], none⟩
    else if status = 304 then
      match old with
      | some o => ⟨.ok o, [⟨url, headers, params⟩], none⟩
      | none => ⟨.error .nameError, [⟨url, headers, params⟩], none⟩
    else
      match text with
      | .badJSON => ⟨.error .jsonDecodeError, [⟨url, headers, params⟩], none⟩
      | .goodJSON d =>
        match lookupHdr rheaders "Expires" with
        | none => ⟨.error .keyError, [⟨url, headers, params⟩], none⟩
        | some e =>
          match lookupHdr rheaders "Last-Modified" with
          | none => ⟨.error .keyError, [⟨url, headers, params⟩], none⟩
          | some lm =>
            ⟨.ok (setKey (setKey d "Expires" (.str e)) "Last-Modified" (.str lm)),
             [⟨url, headers, params⟩],
             some (setKey (setKey d "Expires" (.str e)) "Last-Modified" (.str lm))⟩

/-- Embedding of `yr_client.cached_yr_request(cache_filename, url, headers,
params)`: copy and normalize the parameters; if a cache file exists, load
it (a JSON decode failure is caught and treated as a cache miss), parse its
`Expires` field as a GMT HTTP-date, return the cached record when it is
still strictly in the future, otherwise set `If-Modified-Since` from the
cached `Last-Modified`; then perform the network step. -/
def cached_yr_request (env : Env) (url : String) (headers params : Dict) :
    FetchResult :=
  match normalizeParams params with
  | .error e => ⟨.error e, [], none⟩
  | .ok params' =>
    match env.cache with
    | none => requestStep env.net url headers params' none
    | some .corrupt => requestStep env.net url headers params' none
    | some (.parsed old) =>
      match lookupD old "Expires" with
      | none => ⟨.error .keyError, [], none⟩
      | some (.str s) =>
        match parseHTTPDate s with
        | none => ⟨.error .valueError, [], none⟩
        | some expires =>
          if dtLt env.now expires then ⟨.ok old, [], none⟩
          else
            match lookupD old "Last-Modified" with
            | none => ⟨.error .keyError, [], none⟩
            | some lm =>
              requestStep env.net url (setKey headers "If-Modified-Since" lm)
                params' (some old)
      | some _ => ⟨.error .typeError, [], none⟩

/-! ### Concrete example environments -/

/-- A persisted cache record: some body plus the `Expires` /
`Last-Modified` metadata attached when it was fetched. -/
def exampleCachedRecord : Dict :=
  [("body", .str "data"),
   ("Expires", .str "Sat, 25 Dec 2021 08:03:41 GMT"),
   ("Last-Modified", .str "Sat, 25 Dec 2021 06:00:00 GMT")]

/-- Environment in which `exampleCachedRecord` is still fresh (its
`Expires` is strictly in the future); the network is unreachable, so any
network call would be observable as a `ConnectionError`. -/
def envCacheValid : Env :=
  { now := ⟨2021, 12, 25, 7, 0, 0⟩
    cache := some (.parsed exampleCachedRecord)
    net := fun _ => .connError }

/-- Environment in which `exampleCachedRecord` has expired and the server
answers every request with `304 Not Modified`. -/
def envCacheExpired304 : Env :=
  { now := ⟨2021, 12, 25, 9, 0, 0⟩
    cache := some (.parsed exampleCachedRecord)
    net := fun _ => .resp 304 [] .badJSON }

/-- The body served by the network in `envNoCache200`. -/
def exampleFreshBody : Dict := [("body", .str "new")]

/-- The record `cached_yr_request` builds and persists from the
`envNoCache200` response. -/
def exampleFreshRecord : Dict :=
  [("body", .str "new"),
   ("Expires", .str "Sat, 25 Dec 2021 10:00:00 GMT"),
   ("Last-Modified", .str "Sat, 25 Dec 2021 08:30:00 GMT")]

/-- Environment with no cache file and a server answering `200` with a
JSON body and cache-control headers. -/
def envNoCache200 : Env :=
  { now := ⟨2021, 12, 25, 9, 0, 0⟩
    cache := none
    net := fun _ =>
      .resp 200
        [("Expires", "Sat, 25 Dec 2021 10:00:00 GMT"),
         ("Last-Modified", "Sat, 25 Dec 2021 08:30:00 GMT")]
        (.goodJSON exampleFreshBody) }

/-- Environment with no cache file and a server answering `404`. -/
def env404 : Env :=
  { now := ⟨2021, 12, 25, 9, 0, 0⟩
    cache := none
    net := fun _ => .resp 404 [] .badJSON }

/-- A cache file that decodes as JSON but lacks the `Expires` field the
persisted-record format requires. -/
def envCacheMissingExpires : Env :=
  { envNoCache200 with cache := some (.parsed [("body", .str "x")]) }

/-! ### Lemmas about `dropDupKeepLast` -/

theorem timesOf_nil : timesOf [] = [] := rfl

theorem timesOf_cons (r : Row) (rs : DF) : timesOf (r :: rs) = r.1 :: timesOf rs := rfl

theorem timesOf_append (xs ys : DF) : timesOf (xs ++ ys) = timesOf xs ++ timesOf ys :=
  List.map_append _ _ _

theorem dropDupKeepLast_nil : dropDupKeepLast [] = [] := rfl

theorem dropDupKeepLast_cons (r : Row) (rs : DF) :
    dropDupKeepLast (r :: rs) =
      if r.1 ∈ timesOf rs then dropDupKeepLast rs else r :: dropDupKeepLast rs := rfl

theorem mem_of_mem_dropDupKeepLast {x : Row} : ∀ {xs : DF},
    x ∈ dropDupKeepLast xs → x ∈ xs := by
  intro xs
  induction xs with
  | nil => exact fun h => h
  | cons r rs ih =>
    rw [dropDupKeepLast_cons]
    by_cases hc : r.1 ∈ timesOf rs
    · rw [if_pos hc]
      exact fun h => List.mem_cons_of_mem _ (ih h)
    · rw [if_neg hc]
      intro h
      rcases List.mem_cons.mp h with h | h
      · exact h ▸ List.mem_cons_self _ _
      · exact List.mem_cons_of_mem _ (ih h)

theorem timesOf_dropDupKeepLast_subset {t : Int} {xs : DF}
    (h : t ∈ timesOf (dropDupKeepLast xs)) : t ∈ timesOf xs := by
  simp only [timesOf, List.mem_map] at h ⊢
  obtain ⟨x, hx, rfl⟩ := h
  exact ⟨x, mem_of_mem_dropDupKeepLast hx, rfl⟩

theorem timesOf_dropDupKeepLast_nodup : ∀ (xs : DF),
    (timesOf (dropDupKeepLast xs)).Nodup := by
  intro xs
  induction xs with
  | nil => exact List.nodup_nil
  | cons r rs ih =>
    rw [dropDupKeepLast_cons]
    by_cases hc : r.1 ∈ timesOf rs
    · rw [if_pos hc]; exact ih
    · rw [if_neg hc, timesOf_cons, List.nodup_cons]
      exact ⟨fun h => hc (timesOf_dropDupKeepLast_subset h), ih⟩

theorem dropDupKeepLast_eq_self : ∀ {xs : DF}, (timesOf xs).Nodup →
    dropDupKeepLast xs = xs := by
  intro xs
  induction xs with
  | nil => exact fun _ => rfl
  | cons r rs ih =>
    intro h
    rw [timesOf_cons, List.nodup_cons] at h
    rw [dropDupKeepLast_cons, if_neg h.1, ih h.2]

theorem dropDupKeepLast_append_of_nodup : ∀ {xs : DF} (ys : DF),
    (timesOf xs).Nodup →
    dropDupKeepLast (xs ++ ys) =
      xs.filter (fun x => !(decide (x.1 ∈ timesOf ys))) ++ dropDupKeepLast ys := by
  intro xs
  induction xs with
  | nil => intro ys _; rfl
  | cons r rs ih =>
    intro ys h
    rw [timesOf_cons, List.nodup_cons] at h
    have hsplit : r.1 ∈ timesOf (rs ++ ys) ↔ r.1 ∈ timesOf ys := by
      rw [timesOf_append, List.mem_append]
      exact ⟨fun hc => hc.resolve_left h.1, Or.inr⟩
    rw [List.cons_append, dropDupKeepLast_cons, List.filter_cons]
    by_cases hy : r.1 ∈ timesOf ys
    · rw [if_pos (hsplit.mpr hy), ih ys h.2]
      simp [hy]
    · rw [if_neg (fun hc => hy (hsplit.mp hc)), ih ys h.2]
      simp [hy]

/-- Splitting `dropDupKeepLast (xs ++ ys)` without any `Nodup` hypothesis:
the result is some sublist of `xs` (whose times avoid `ys`) followed by
`dropDupKeepLast ys`. -/
theorem dropDupKeepLast_append_split : ∀ (xs ys : DF),
    ∃ B : DF, dropDupKeepLast (xs ++ ys) = B ++ dropDupKeepLast ys ∧
      ∀ b ∈ B, b ∈ xs ∧ b.1 ∉ timesOf ys := by
  intro xs
  induction xs with
  | nil => intro ys; exact ⟨[], rfl, by intro b hb; cases hb⟩
  | cons r rs ih =>
    intro ys
    obtain ⟨B, hB, hBmem⟩ := ih ys
    rw [List.cons_append, dropDupKeepLast_cons]
    by_cases hc : r.1 ∈ timesOf (rs ++ ys)
    · rw [if_pos hc]
      exact ⟨B, hB, fun b hb => ⟨List.mem_cons_of_mem _ (hBmem b hb).1, (hBmem b hb).2⟩⟩
    · rw [if_neg hc]
      refine ⟨r :: B, by rw [hB, List.cons_append], ?_⟩
      intro b hb
      rcases List.mem_cons.mp hb with h | h
      · subst h
        refine ⟨List.mem_cons_self _ _, fun hy => hc ?_⟩
        rw [timesOf_append, List.mem_append]
        exact Or.inr hy
      · exact ⟨List.mem_cons_of_mem _ (hBmem b h).1, (hBmem b h).2⟩

/-! ### Lemmas about `sortByTime` -/

theorem sortByTime_perm (df : DF) : List.Perm (sortByTime df) df :=
  List.perm_insertionSort rowLE df

theorem sortByTime_sorted (df : DF) : (sortByTime df).Sorted rowLE :=
  List.sorted_insertionSort rowLE df

theorem timesOf_perm {df df' : DF} (h : List.Perm df df') :
    List.Perm (timesOf df) (timesOf df') :=
  h.map Prod.fst

/-- A dataframe sorted (weakly) by time whose times are distinct is strictly
sorted by time. -/
theorem pairwise_lt_of_sorted_nodup {df : DF}
    (hs : df.Sorted rowLE) (hn : (timesOf df).Nodup) : df.Pairwise rowLT := by
  have hne : df.Pairwise (fun a b : Row => a.1 ≠ b.1) :=
    (List.pairwise_map.mp hn)
  exact (hs.and hne).imp (fun h => lt_of_le_of_ne h.1 h.2)

/-- Two dataframes strictly sorted by time containing the same rows are
equal. -/
theorem eq_of_perm_of_pairwise_lt {df df' : DF} (hp : List.Perm df df')
    (h1 : df.Pairwise rowLT) (h2 : df'.Pairwise rowLT) : df = df' :=
  List.eq_of_perm_of_sorted hp h1 h2

/-- When a stored archive is present, `pandas_concat` always yields a
strictly time-sorted dataframe with pairwise-distinct times. -/
theorem pandas_concat_some_strict (df1 d2 : DF) (subset : String) :
    (pandas_concat df1 (some d2) subset).Pairwise rowLT ∧
      (timesOf (pandas_concat df1 (some d2) subset)).Nodup := by
  have hperm : List.Perm (sortByTime (dropDupKeepLast (d2 ++ df1)))
      (dropDupKeepLast (d2 ++ df1)) := sortByTime_perm _
  have hnodup : (timesOf (sortByTime (dropDupKeepLast (d2 ++ df1)))).Nodup :=
    ((timesOf_perm hperm).nodup_iff).mpr (timesOf_dropDupKeepLast_nodup _)
  exact ⟨pairwise_lt_of_sorted_nodup (sortByTime_sorted _) hnodup, hnodup⟩

/-- Row-level description of the merge when both inputs have pairwise
distinct times: a row is in the result iff it comes from the new rows, or
from the archive with a time the new rows do not cover. -/
theorem mem_pandas_concat_iff (A N : DF) (subset : String)
    (hA : (timesOf A).Nodup) (hN : (timesOf N).Nodup) (r : Row) :
    r ∈ pandas_concat N (some A) subset ↔
      r ∈ N ∨ (r ∈ A ∧ r.1 ∉ timesOf N) := by
  show r ∈ sortByTime (dropDupKeepLast (A ++ N)) ↔ _
  rw [(sortByTime_perm _).mem_iff, dropDupKeepLast_append_of_nodup N hA,
    dropDupKeepLast_eq_self hN, List.mem_append, List.mem_filter]
  constructor
  · rintro (⟨hrA, hp⟩ | hrN)
    · refine Or.inr ⟨hrA, ?_⟩
      simpa using hp
    · exact Or.inl hrN
  · rintro (hrN | ⟨hrA, hni⟩)
    · exact Or.inr hrN
    · exact Or.inl ⟨hrA, by simpa using hni⟩

/-- Re-merging the same rows into an archive that already went through the
merge is a no-op: the key step behind idempotence when a stored archive
exists. -/
theorem keep_history_restabilizes (A0 df : DF) :
    keep_history (some (keep_history (some A0) df)) df = keep_history (some A0) df := by
  obtain ⟨B, hB, hBmem⟩ := dropDupKeepLast_append_split A0 df
  have hSperm : List.Perm (keep_history (some A0) df) (B ++ dropDupKeepLast df) := by
    show List.Perm (sortByTime (dropDupKeepLast (A0 ++ df))) _
    rw [hB] at *
    exact sortByTime_perm _
  have hSnodup : (timesOf (keep_history (some A0) df)).Nodup :=
    (pandas_concat_some_strict df A0 "time").2
  have hsplit := @dropDupKeepLast_append_of_nodup (keep_history (some A0) df) df hSnodup
  have hfilter : List.Perm
      ((keep_history (some A0) df).filter (fun x => !(decide (x.1 ∈ timesOf df)))) B := by
    have h1 := hSperm.filter (fun x => !(decide (x.1 ∈ timesOf df)))
    rw [List.filter_append] at h1
    have h2 : B.filter (fun x => !(decide (x.1 ∈ timesOf df))) = B :=
      List.filter_eq_self.mpr (fun b hb => by simp [(hBmem b hb).2])
    have h3 : (dropDupKeepLast df).filter (fun x => !(decide (x.1 ∈ timesOf df))) = [] := by
      rw [List.filter_eq_nil_iff]
      intro x hx
      have hxdf : x ∈ df := mem_of_mem_dropDupKeepLast hx
      have : x.1 ∈ timesOf df := List.mem_map_of_mem Prod.fst hxdf
      simp [this]
    rw [h2, h3, List.append_nil] at h1
    exact h1
  have hperm2 : List.Perm (dropDupKeepLast (keep_history (some A0) df ++ df))
      (keep_history (some A0) df) := by
    rw [hsplit]
    exact (hfilter.append_right _).trans hSperm.symm
  have hLperm : List.Perm (keep_history (some (keep_history (some A0) df)) df)
      (keep_history (some A0) df) := by
    show List.Perm (sortByTime (dropDupKeepLast (keep_history (some A0) df ++ df))) _
    exact (sortByTime_perm _).trans hperm2
  exact eq_of_perm_of_pairwise_lt hLperm
    (pandas_concat_some_strict df _ "time").1
    (pandas_concat_some_strict df A0 "time").1

/-! ### Lemmas about parameter normalization -/

/-- Formatting a string with `'{:.<d>f}'` raises `ValueError`, which the
normalization loop catches: string values pass through unchanged. -/
theorem normalizeParam_str (k : String) (s : String) :
    normalizeParam k (.str s) = .ok (.str s) := by
  unfold normalizeParam
  split_ifs <;> rfl

/-- A successfully normalized value re-normalizes to itself. -/
theorem normalizeParam_fix {k : String} {v v' : PVal}
    (h : normalizeParam k v = .ok v') : normalizeParam k v' = .ok v' := by
  unfold normalizeParam at h ⊢
  by_cases hk : k = "lat" ∨ k = "lon"
  · rw [if_pos hk] at h ⊢
    cases v with
    | num m e =>
      simp only [formatFixed] at h
      injection h with h
      subst h
      rfl
    | str s =>
      simp only [formatFixed] at h
      injection h with h
      subst h
      rfl
    | pynone => simp [formatFixed] at h
  · rw [if_neg hk] at h ⊢
    by_cases ha : k = "altitude"
    · rw [if_pos ha] at h ⊢
      cases v with
      | num m e =>
        simp only [formatFixed] at h
        injection h with h
        subst h
        rfl
      | str s =>
        simp only [formatFixed] at h
        injection h with h
        subst h
        rfl
      | pynone => simp [formatFixed] at h
    · rw [if_neg ha]

/-- A successfully normalized parameter dict re-normalizes to itself. -/
theorem normalizeParams_fix : ∀ {p r : Dict},
    normalizeParams p = .ok r → normalizeParams r = .ok r := by
  intro p
  induction p with
  | nil =>
    intro r h
    injection h with h
    subst h
    rfl
  | cons kv rest ih =>
    intro r h
    obtain ⟨k, v⟩ := kv
    unfold normalizeParams at h
    cases hnp : normalizeParam k v with
    | error e => rw [hnp] at h; cases h
    | ok v' =>
      rw [hnp] at h
      cases hrest : normalizeParams rest with
      | error e => rw [hrest] at h; cases h
      | ok rest' =>
        rw [hrest] at h
        injection h with h
        subst h
        show normalizeParams ((k, v') :: rest') = .ok ((k, v') :: rest')
        unfold normalizeParams
        rw [normalizeParam_fix hnp, ih hrest]

/-! ### Lemmas about the network step -/

/-- Every branch of `requestStep` performs exactly the one request it was
entered with. -/
theorem requestStep_netCalls (net : Request → NetOutcome) (url : String)
    (headers params : Dict) (old : Option Dict) :
    (requestStep net url headers params old).netCalls = [⟨url, headers, params⟩] := by
  unfold requestStep
  cases net ⟨url, headers, params⟩ with
  | connError => rfl
  | resp s rh t =>
    dsimp only
    split
    · rfl
    · split
      · cases old <;> rfl
      · cases t with
        | badJSON => rfl
        | goodJSON d =>
          dsimp only
          cases lookupHdr rh "Expires" with
          | none => rfl
          | some e =>
            cases lookupHdr rh "Last-Modified" <;> rfl

/-- On a connection error or a 4xx/5xx status, `requestStep` propagates
the error and writes nothing. -/
theorem requestStep_transport (net : Request → NetOutcome) (url : String)
    (headers params : Dict) (old : Option Dict) :
    (net ⟨url, headers, params⟩ = .connError →
      requestStep net url headers params old =
        ⟨.error .connectionError, [⟨url, headers, params⟩], none⟩) ∧
    (∀ s rh t, net ⟨url, headers, params⟩ = .resp s rh t → 400 ≤ s → s < 600 →
      requestStep net url headers params old =
        ⟨.error .httpError, [⟨url, headers, params⟩], none⟩) := by
  constructor
  · intro hn
    unfold requestStep
    rw [hn]
  · intro s rh t hn h4 h6
    unfold requestStep
    rw [hn]
    dsimp only
    rw [if_pos ⟨h4, h6⟩]

/-- Every call of `cached_yr_request` either performs no network request,
or behaves as one `requestStep` with some headers, normalized parameters
and loaded cache record. -/
theorem cached_yr_request_shape (env : Env) (url : String) (headers params : Dict) :
    (cached_yr_request env url headers params).netCalls = [] ∨
    ∃ h' p' old, cached_yr_request env url headers params =
      requestStep env.net url h' p' old := by
  unfold cached_yr_request
  cases normalizeParams params with
  | error e => exact Or.inl rfl
  | ok p' =>
    dsimp only
    cases env.cache with
    | none => exact Or.inr ⟨headers, p', none, rfl⟩
    | some rf =>
      cases rf with
      | corrupt => exact Or.inr ⟨headers, p', none, rfl⟩
      | parsed old =>
        dsimp only
        cases lookupD old "Expires" with
        | none => exact Or.inl rfl
        | some v =>
          cases v with
          | num m e => exact Or.inl rfl
          | pynone => exact Or.inl rfl
          | str s =>
            dsimp only
            cases parseHTTPDate s with
            | none => exact Or.inl rfl
            | some expires =>
              dsimp only
              by_cases hd : dtLt env.now expires
              · rw [if_pos hd]
                exact Or.inl rfl
              · rw [if_neg hd]
                cases lookupD old "Last-Modified" with
                | none => exact Or.inl rfl
                | some lm =>
                  exact Or.inr ⟨setKey headers "If-Modified-Since" lm, p', some old, rfl⟩

/-! ## Claims -/

/-- C1: on a stored cache entry whose `Expires` ("Sat, 25 Dec 2021
08:03:41 GMT") is strictly later than the call time, `cached_yr_request`
returns the persisted record immediately, performs no network call and
touches no state — but the returned record carries no `Cached` / wasCached
flag at all, so the claim's "reports wasCached = true" does not hold on
the code (callers in `yr_examples.py` read `res['Cached']` and would hit a
`KeyError`). -/
theorem C1_freshness_gate_lacks_wasCached_flag :
    cached_yr_request envCacheValid "url" [] [] = ⟨.ok exampleCachedRecord, [], none⟩ ∧
      lookupD exampleCachedRecord "Cached" = none := by
  exact ⟨by decide, by decide⟩

/-- C2: the wasCached contract is not honoured by the code.  On each of
the three return paths — fresh-cache fast path, 304 revalidation path, and
fresh network fetch — the returned record lacks a `Cached` key, so a
caller reading that signal (as `yr_examples.get_hourly_forecast_compact`
does with `res['Cached']`) fails with `KeyError` on every path. -/
theorem C2_no_wasCached_signal_on_any_path :
    ((cached_yr_request envCacheValid "url" [] []).result = .ok exampleCachedRecord ∧
      lookupD exampleCachedRecord "Cached" = none) ∧
    ((cached_yr_request envCacheExpired304 "url" [] []).result = .ok exampleCachedRecord) ∧
    ((cached_yr_request envNoCache200 "url" [] []).result = .ok exampleFreshRecord ∧
      lookupD exampleFreshRecord "Cached" = none) := by
  exact ⟨⟨by decide, by decide⟩, by decide, by decide, by decide⟩

/-- C3: on an expired entry `cached_yr_request` sends exactly one GET
whose `If-Modified-Since` header equals the stored `Last-Modified`, and a
304 answer yields the previously persisted record unchanged with no cache
rewrite — but, as with C1/C2, the result carries no `Cached` / wasCached
flag, so the claim's "wasCached = true" does not hold on the code. -/
theorem C3_revalidation_304_lacks_wasCached_flag :
    cached_yr_request envCacheExpired304 "url" [] [] =
      ⟨.ok exampleCachedRecord,
       [⟨"url", [("If-Modified-Since", .str "Sat, 25 Dec 2021 06:00:00 GMT")], []⟩],
       none⟩ ∧
    lookupD exampleCachedRecord "Last-Modified" =
      some (.str "Sat, 25 Dec 2021 06:00:00 GMT") ∧
    lookupD exampleCachedRecord "Cached" = none := by
  exact ⟨by decide, by decide, by decide⟩

/-- C4: merging an archive `A` with new rows `N` (each with pairwise
distinct times) keeps exactly the rows of `N` plus the rows of `A` whose
timestamp `N` does not cover — whole rows, no field-by-field merge — and
the result is strictly sorted ascending by timestamp. -/
theorem C4_merge_dedup_override (A N : DF)
    (hA : (timesOf A).Nodup) (hN : (timesOf N).Nodup) :
    (∀ r : Row, r ∈ pandas_concat N (some A) "time" ↔
       r ∈ N ∨ (r ∈ A ∧ r.1 ∉ timesOf N)) ∧
    (pandas_concat N (some A) "time").Pairwise rowLT :=
  ⟨mem_pandas_concat_iff A N "time" hA hN, (pandas_concat_some_strict N A "time").1⟩

/-- C4 witness: the spec's own example — archive `[(t1, A), (t2, B)]`
merged with new rows `[(t2, B2), (t3, C)]` yields
`[(t1, A), (t2, B2), (t3, C)]`. -/
theorem C4_merge_dedup_override_witness :
    ((timesOf [((1 : Int), "A"), (2, "B")]).Nodup ∧
      (timesOf [((2 : Int), "B2"), (3, "C")]).Nodup) ∧
    ((∀ r : Row,
        r ∈ pandas_concat [((2 : Int), "B2"), (3, "C")] (some [((1 : Int), "A"), (2, "B")]) "time" ↔
          r ∈ ([((2 : Int), "B2"), (3, "C")] : DF) ∨
            (r ∈ ([((1 : Int), "A"), (2, "B")] : DF) ∧
              r.1 ∉ timesOf [((2 : Int), "B2"), (3, "C")])) ∧
      (pandas_concat [((2 : Int), "B2"), (3, "C")]
        (some [((1 : Int), "A"), (2, "B")]) "time").Pairwise rowLT) ∧
    pandas_concat [((2 : Int), "B2"), (3, "C")] (some [((1 : Int), "A"), (2, "B")]) "time" =
      [(1, "A"), (2, "B2"), (3, "C")] :=
  ⟨⟨by decide, by decide⟩,
   C4_merge_dedup_override [((1 : Int), "A"), (2, "B")] [((2 : Int), "B2"), (3, "C")]
     (by decide) (by decide),
   by decide⟩

/-- C5 counterexample: with no pre-existing archive, the first
`keep_history` call persists the new rows unchanged (no dedup, no sort),
so a second identical call — which does merge and sort — produces a
different archive: the claim's unconditional idempotence fails. -/
theorem C5_idempotence_counterexample :
    keep_history (some (keep_history none [((2 : Int), "B"), (1, "A")]))
        [((2 : Int), "B"), (1, "A")] ≠
      keep_history none [((2 : Int), "B"), (1, "A")] := by
  decide

/-- C5 (amended): `keep_history` is idempotent whenever an archive already
exists for the resource: re-merging the same rows into the archive
produced by the first merge returns that archive unchanged. -/
theorem C5_merge_idempotent_given_existing_archive (A0 df : DF) :
    keep_history (some (keep_history (some A0) df)) df = keep_history (some A0) df :=
  keep_history_restabilizes A0 df

/-- C6 counterexample: with no pre-existing archive the merged result is
the new rows unchanged, so it need not be sorted (nor deduplicated): the
claimed invariant fails in the absent-archive case. -/
theorem C6_invariant_counterexample :
    ¬ (keep_history none [((2 : Int), "B"), (1, "A")]).Pairwise rowLT := by
  decide

/-- C6 (amended): whenever an archive exists, the archive returned and
persisted by `keep_history` is strictly sorted ascending by timestamp and
has pairwise distinct timestamps (one row per timestamp), for every input
rows sequence. -/
theorem C6_archive_strictly_sorted_given_existing_archive (A0 df : DF) :
    (keep_history (some A0) df).Pairwise rowLT ∧
      (timesOf (keep_history (some A0) df)).Nodup :=
  pandas_concat_some_strict df A0 "time"

/-- C7 counterexample: a persisted entry that decodes as JSON but lacks
the `Expires` field of the expected record format is unparsable as that
format, yet `cached_yr_request` raises `KeyError` (only
`json.JSONDecodeError` is caught) instead of proceeding to a network
fetch. -/
theorem C7_structured_corruption_counterexample :
    cached_yr_request envCacheMissingExpires "url" [] [] =
      ⟨.error .keyError, [], none⟩ := by
  decide

/-- C7 (amended): the as-if-no-cache recovery holds exactly for entries
whose content fails JSON decoding: with a corrupt cache file the whole
observable behaviour of `cached_yr_request` — result, requests issued (in
particular no `If-Modified-Since` header), record written — equals that of
a call with no cache file at all, for every environment and input. -/
theorem C7_json_corrupt_cache_as_if_absent (env : Env) (url : String)
    (headers params : Dict) :
    cached_yr_request { env with cache := some .corrupt } url headers params =
      cached_yr_request { env with cache := none } url headers params := by
  unfold cached_yr_request
  cases normalizeParams params <;> rfl

/-- C8: whenever the one network call `cached_yr_request` performs comes
back as a connection error or with a 4xx/5xx status, the corresponding
exception propagates to the caller and nothing is written to the cache
file. -/
theorem C8_transport_failure_propagates (env : Env) (url : String)
    (headers params : Dict) (req : Request)
    (hcall : (cached_yr_request env url headers params).netCalls = [req]) :
    (env.net req = .connError →
      (cached_yr_request env url headers params).result = .error .connectionError ∧
      (cached_yr_request env url headers params).written = none) ∧
    (∀ s rh t, env.net req = .resp s rh t → 400 ≤ s → s < 600 →
      (cached_yr_request env url headers params).result = .error .httpError ∧
      (cached_yr_request env url headers params).written = none) := by
  rcases cached_yr_request_shape env url headers params with hemp | ⟨h', p', old, heq⟩
  · rw [hemp] at hcall
    cases hcall
  · rw [heq] at hcall ⊢
    rw [requestStep_netCalls] at hcall
    have hreq : req = ⟨url, h', p'⟩ := by
      injection hcall with h1 _
      exact h1.symm
    subst hreq
    refine ⟨fun hn => ?_, fun s rh t hn h4 h6 => ?_⟩
    · rw [(requestStep_transport env.net url h' p' old).1 hn]
      exact ⟨rfl, rfl⟩
    · rw [(requestStep_transport env.net url h' p' old).2 s rh t hn h4 h6]
      exact ⟨rfl, rfl⟩

/-- C8 witness: with no cache and a server answering 404, the call
performs one request, raises the HTTP error and writes nothing. -/
theorem C8_transport_failure_witness :
    (cached_yr_request env404 "url" [] []).netCalls = [⟨"url", [], []⟩] ∧
    ((cached_yr_request env404 "url" [] []).result = .error .httpError ∧
      (cached_yr_request env404 "url" [] []).written = none) :=
  ⟨by decide,
   (C8_transport_failure_propagates env404 "url" [] [] ⟨"url", [], []⟩ (by decide)).2
     404 [] .badJSON rfl (by decide) (by decide)⟩

/-- C9 counterexample: a `lat` value that is neither a number nor a string
(Python `None`) makes the normalization loop raise `TypeError` — only
`ValueError` is caught — so "never raises and passes the value through
unchanged" fails for such values. -/
theorem C9_none_value_raises_counterexample :
    normalizeParams [("lat", PVal.pynone)] = .error .typeError := by
  decide

/-- C9 (amended): normalization is idempotent on every successfully
normalized parameter dict (re-normalizing yields the same dict), and every
string value — in particular one that cannot be parsed as a number — is
passed through unchanged because its `ValueError` is caught; only
non-string non-numeric values (e.g. `None`) raise. -/
theorem C9_normalization_idempotent_strings_pass :
    (∀ p r : Dict, normalizeParams p = .ok r → normalizeParams r = .ok r) ∧
    (∀ k s, normalizeParam k (.str s) = .ok (.str s)) :=
  ⟨fun _ _ h => normalizeParams_fix h, normalizeParam_str⟩

/-- C9 witness: the spec's example — normalizing `{lat: 59.719491234}`
yields `{lat: "59.7195"}`, and normalizing again yields the same dict. -/
theorem C9_normalization_witness :
    normalizeParams [("lat", PVal.num 59719491234 9)] =
      .ok [("lat", .str "59.7195")] ∧
    normalizeParams [("lat", PVal.str "59.7195")] =
      .ok [("lat", .str "59.7195")] :=
  ⟨by decide,
   C9_normalization_idempotent_strings_pass.1 [("lat", PVal.num 59719491234 9)]
     [("lat", PVal.str "59.7195")] (by decide)⟩

/-- C10: `pandas_concat` ignores its `subset` parameter — the
deduplication is hard-coded to the `time` column — so for every value of
`subset` the result equals the `subset = "time"` call, and the result's
times are pairwise distinct. -/
theorem C10_pandas_concat_ignores_subset (df1 d2 : DF) (subset : String) :
    pandas_concat df1 (some d2) subset = pandas_concat df1 (some d2) "time" ∧
      (timesOf (pandas_concat df1 (some d2) subset)).Nodup :=
  ⟨rfl, (pandas_concat_some_strict df1 d2 subset).2⟩

end YrToPandas
